import Mathlib

/-!
Shallow embedding of the praan-task backend core (command dispatcher,
schedule arbiter, override stack manager and coordination policy) from
src/backend/services/mqttService.js, schedulerService.js,
preCleanService.js, src/backend/routes/precleanRoutes.js and
src/backend/models/PreClean.js, together with theorems settling the
specification claims about them.

Times are modelled as naturals (milliseconds or abstract units), device
and record identifiers as naturals, and the MongoDB collections as Lean
lists of records.  Mutating queries (findOneAndUpdate, save, $push)
become pure list transformations; each definition follows the control
flow of the JavaScript function it is named after.
-/

namespace Praan

/-! ### Data model -/

/-- Command actions used by the services: setFanSpeed, turnOn, turnOff. -/
inductive Action
  | setFanSpeed
  | turnOn
  | turnOff
  deriving DecidableEq

/-- The source tag of a command, as passed to MQTTService.sendCommand.
The code uses the strings schedule, preclean, restore and manual. -/
inductive Source
  | schedule
  | preclean
  | restore
  | manual
  deriving DecidableEq

/-- PreClean status enumeration from models/PreClean.js. -/
inductive PCStatus
  | active
  | completed
  | cancelled
  deriving DecidableEq

/-- Fan mode enumeration from models/PreClean.js
(strings OFF, AUTO, MANUAL, PRE_CLEAN). -/
inductive FanMode
  | off
  | auto
  | manual
  | preCleanBoost
  deriving DecidableEq

/-- The previousState snapshot stored on a PreClean record. -/
structure PrevState where
  fanSpeed : Nat
  powerOn : Bool
  deriving DecidableEq

/-- A PreClean (override) record, models/PreClean.js.  The Mongo _id is
identified with the unique preCleanId. -/
structure PreCleanRec where
  preCleanId : Nat
  deviceId : Nat
  fanMode : FanMode
  fanSpeed : Option Nat
  duration : Nat
  previousState : PrevState
  startedAt : Nat
  scheduledEndAt : Nat
  actualEndAt : Option Nat
  status : PCStatus
  deriving DecidableEq

/-- Status of a schedule execution-history entry. -/
inductive HistStatus
  | success
  | failed
  | blocked
  deriving DecidableEq

/-- One executionHistory entry of a Schedule record (message string
omitted, it carries no control-flow information). -/
structure HistEntry where
  executedAt : Nat
  status : HistStatus
  retryCount : Nat
  deriving DecidableEq

/-- A Schedule record.  day is the single weekday field, days the
multi-day variant; startTime and endTime are minutes since midnight,
matching the lexicographic comparison of zero-padded HH:MM strings. -/
structure ScheduleRec where
  sid : Nat
  deviceId : Nat
  day : Option Nat
  days : List Nat
  startTime : Nat
  endTime : Nat
  fanSpeed : Nat
  isActive : Bool
  executionHistory : List HistEntry
  lastExecuted : Option Nat
  deriving DecidableEq

/-- Status of a command audit record, models/CommandLog. -/
inductive CmdStatus
  | pending
  | sent
  | acknowledged
  | failed
  | timeout
  deriving DecidableEq

/-- A command audit record (CommandLog).  The deviceResponse subdocument
is flattened into deviceResponseOk / deviceResponseAt. -/
structure CommandLogRec where
  commandId : Nat
  deviceId : Nat
  action : Action
  value : Nat
  source : Source
  status : CmdStatus
  sentAt : Option Nat
  acknowledgedAt : Option Nat
  retryCount : Nat
  deviceResponseOk : Option Bool
  deviceResponseAt : Option Nat
  deriving DecidableEq

/-- A DeviceState record; scheduleEnded models
scheduleState.scheduleEnded. -/
structure DeviceStateRec where
  deviceId : Nat
  currentFanSpeed : Nat
  powerOn : Bool
  isOnline : Bool
  lastSeen : Nat
  scheduleEnded : Bool
  deriving DecidableEq

/-- A wall-clock moment as the scheduler sees it: weekday plus minutes
since midnight. -/
structure Moment where
  day : Nat
  minutes : Nat
  deriving DecidableEq

/-! ### Coordination policy (MQTTService.sendCommand, lines 281-316) -/

/-- PreClean.find with filter deviceId and status active
(the query inside sendCommand and PreClean.findActiveByDevice). -/
def findActivePreCleans (pcs : List PreCleanRec) (d : Nat) : List PreCleanRec :=
  pcs.filter (fun p => decide (p.deviceId = d ∧ p.status = PCStatus.active))

/-- Result of the admission part of sendCommand: either the command is
blocked by the coordination policy, or it proceeds to dispatch. -/
inductive SendDecision
  | blocked
  | dispatch
  deriving DecidableEq

/-- The admission rule at the top of MQTTService.sendCommand: a
schedule-sourced command other than turnOff is blocked when any
pre-clean is active for the device; everything else proceeds. -/
def sendCommandPolicy (pcs : List PreCleanRec) (d : Nat)
    (action : Action) (source : Source) : SendDecision :=
  if source = Source.schedule ∧ action ≠ Action.turnOff then
    if (findActivePreCleans pcs d).length > 0 then SendDecision.blocked
    else SendDecision.dispatch
  else SendDecision.dispatch

/-- The visible effect of one call to MQTTService.sendCommand, before
the retry loop: whether the call returned the blocked object, which
command envelope (if any) was handed to sendCommandWithRetry, and the
pending audit record it created. -/
structure SendStep where
  blocked : Bool
  published : Option (Nat × Action × Nat)
  newLog : Option CommandLogRec
  deviceStates : List DeviceStateRec
  deriving DecidableEq

/-- findOneAndUpdate with upsert that sets scheduleEnded on the device
state (the schedule-turnOff branch of sendCommand). -/
def markScheduleEnded (devs : List DeviceStateRec) (d : Nat) : List DeviceStateRec :=
  if devs.any (fun s => s.deviceId == d) then
    devs.map (fun s => if s.deviceId = d then { s with scheduleEnded := true } else s)
  else
    devs ++ [{ deviceId := d, currentFanSpeed := 0, powerOn := false,
               isOnline := false, lastSeen := 0, scheduleEnded := true }]

/-- MQTTService.sendCommand up to the hand-off to the retry loop:
applies the coordination policy, records the schedule-end flag on a
schedule turnOff, creates the pending audit record and publishes the
envelope.  cid is the freshly generated commandId. -/
def sendCommandStep (pcs : List PreCleanRec) (devs : List DeviceStateRec)
    (d : Nat) (action : Action) (value : Nat) (source : Source)
    (cid : Nat) : SendStep :=
  match sendCommandPolicy pcs d action source with
  | SendDecision.blocked =>
      { blocked := true, published := none, newLog := none, deviceStates := devs }
  | SendDecision.dispatch =>
      let devs' :=
        if source = Source.schedule ∧ action = Action.turnOff then
          markScheduleEnded devs d
        else devs
      { blocked := false
        published := some (cid, action, value)
        newLog := some { commandId := cid, deviceId := d, action := action,
                         value := value, source := source,
                         status := CmdStatus.pending, sentAt := none,
                         acknowledgedAt := none, retryCount := 0,
                         deviceResponseOk := none, deviceResponseAt := none }
        deviceStates := devs' }

/-! ### Retry loop (MQTTService.sendCommandWithRetry, lines 346-423,
together with the pending-command bookkeeping of handleAcknowledgment
lines 239-244).

The promise returned by sendCommandWithRetry can settle in exactly two
ways in the source: reject on a publish error, or reject with the
Error after the retry budget is exhausted.  When an acknowledgment for
the commandId arrives inside an attempt's timeout window,
handleAcknowledgment clears the timeout and removes the pending entry
but never invokes the stored resolve, so the promise never settles.
The model records that as promise = none. -/

/-- How the promise returned by sendCommand settles, if it settles. -/
inductive PromiseOutcome
  | resolvedBlocked
  | rejectedPublishError
  | rejectedTimeout
  deriving DecidableEq

/-- A settle is a rejection (a throw to an awaiting caller) when it
came from the reject callback rather than resolve. -/
def PromiseOutcome.isRejection : PromiseOutcome → Bool
  | PromiseOutcome.resolvedBlocked => false
  | PromiseOutcome.rejectedPublishError => true
  | PromiseOutcome.rejectedTimeout => true

/-- The observable trace of sendCommandWithRetry for one command:
how many publish attempts happened, the envelope identifier published
at each attempt (in order), the time consumed by expired timeout
windows, the final audit status written for the command, whether an
acknowledgment was processed, and how (whether) the promise settled. -/
structure RetryRun where
  attempts : Nat
  publishes : List Nat
  elapsed : Nat
  finalStatus : CmdStatus
  ackHandled : Bool
  promise : Option PromiseOutcome
  deriving DecidableEq

/-- MQTTService.sendCommandWithRetry starting at a given retryCount.
maxRetries and timeoutMs are the constructor configuration; pubFails n
tells whether the publish callback of attempt n reports an error;
ackDuring n tells whether an acknowledgment bearing this commandId
arrives within attempt n's timeout window; cid is the commandId of the
(identical, re-published) command envelope. -/
def sendCommandWithRetry (maxRetries timeoutMs : Nat)
    (pubFails ackDuring : Nat → Bool) (cid : Nat) (n : Nat) : RetryRun :=
  if pubFails n then
    { attempts := 1, publishes := [cid], elapsed := 0,
      finalStatus := CmdStatus.failed, ackHandled := false,
      promise := some PromiseOutcome.rejectedPublishError }
  else if ackDuring n then
    { attempts := 1, publishes := [cid], elapsed := 0,
      finalStatus := CmdStatus.acknowledged, ackHandled := true,
      promise := none }
  else if h : n < maxRetries then
    let r := sendCommandWithRetry maxRetries timeoutMs pubFails ackDuring cid (n + 1)
    { attempts := 1 + r.attempts, publishes := cid :: r.publishes,
      elapsed := timeoutMs + r.elapsed, finalStatus := r.finalStatus,
      ackHandled := r.ackHandled, promise := r.promise }
  else
    { attempts := 1, publishes := [cid], elapsed := timeoutMs,
      finalStatus := CmdStatus.timeout, ackHandled := false,
      promise := some PromiseOutcome.rejectedTimeout }
  termination_by maxRetries - n

/-- The constructor default MAX_RETRIES. -/
def maxRetriesDefault : Nat := 3

/-- The constructor default RETRY_TIMEOUT in milliseconds. -/
def retryTimeoutDefault : Nat := 30000

/-! ### Acknowledgment handler (MQTTService.handleAcknowledgment,
lines 220-270) -/

/-- The payload of an inbound ack message: commandId, deviceId, whether
data.status was the string success, the device timestamp, and the
optional currentState report. -/
structure AckData where
  commandId : Nat
  deviceId : Nat
  success : Bool
  timestamp : Nat
  currentState : Option PrevState
  deriving DecidableEq

/-- The backend state handleAcknowledgment touches: the CommandLog
collection, the DeviceState collection, and the ids of in-memory
pending commands (whose timeout would be cleared). -/
structure BackendState where
  logs : List CommandLogRec
  devs : List DeviceStateRec
  pending : List Nat
  deriving DecidableEq

/-- findOneAndUpdate without upsert: update the first matching record,
leave the list unchanged when nothing matches. -/
def updateFirst (p : α → Bool) (f : α → α) : List α → List α
  | [] => []
  | x :: xs => if p x then f x :: xs else x :: updateFirst p f xs

/-- MQTTService.handleAcknowledgment: unconditionally rewrites the
audit record matching data.commandId (status from the ack, a fresh
acknowledgedAt, the deviceResponse), clears the pending timeout when
the commandId is pending, and on a success ack carrying currentState
upserts the device state.  There is no guard for unknown or
already-terminal commandIds. -/
def handleAcknowledgment (st : BackendState) (a : AckData) (now : Nat) :
    BackendState :=
  let logs' := updateFirst (fun L => L.commandId == a.commandId)
      (fun L =>
        { L with
          status := if a.success then CmdStatus.acknowledged else CmdStatus.failed
          acknowledgedAt := some now
          deviceResponseOk := some a.success
          deviceResponseAt := some a.timestamp }) st.logs
  let pending' :=
    if st.pending.contains a.commandId then st.pending.erase a.commandId
    else st.pending
  let devs' :=
    if a.success then
      match a.currentState with
      | some cs =>
          if st.devs.any (fun s => s.deviceId == a.deviceId) then
            updateFirst (fun s => s.deviceId == a.deviceId)
              (fun s =>
                { s with currentFanSpeed := cs.fanSpeed, powerOn := cs.powerOn,
                         isOnline := cs.powerOn, lastSeen := now }) st.devs
          else
            st.devs ++ [{ deviceId := a.deviceId, currentFanSpeed := cs.fanSpeed,
                          powerOn := cs.powerOn, isOnline := cs.powerOn,
                          lastSeen := now, scheduleEnded := false }]
      | none => st.devs
    else st.devs
  { logs := logs', devs := devs', pending := pending' }

/-! ### Shared helpers for the scheduler and the pre-clean service -/

/-- JavaScript reduce keeping the element with the larger key, first
element winning ties: reduce((max, c) => key c > key max ? c : max). -/
def pickMax (key : α → Nat) (a : α) (l : List α) : α :=
  l.foldl (fun mx c => if key c > key mx then c else mx) a

/-- SchedulerService.getActiveSchedulesAtTime: query the schedules of
the device active on the current weekday (single-day field or day
list), then keep those whose [startTime, endTime) window contains the
current time of day. -/
def getActiveSchedulesAtTime (schedules : List ScheduleRec) (d : Nat)
    (t : Moment) : List ScheduleRec :=
  let queried := schedules.filter
    (fun s => decide (s.deviceId = d ∧ s.isActive = true ∧
      (s.day = some t.day ∨ t.day ∈ s.days)))
  queried.filter (fun s => decide (s.startTime ≤ t.minutes ∧ t.minutes < s.endTime))

/-- The JavaScript expression x || d on an optional number: null,
undefined and 0 all fall back to the default. -/
def jsOrNat (v : Option Nat) (d : Nat) : Nat :=
  match v with
  | some x => if x = 0 then d else x
  | none => d

/-- The fan-mode to command mapping shared by
PreCleanService.startPreClean (the switch on fanMode) and the restore
branch of completePreClean: OFF turns the device off, AUTO targets
speed 3, MANUAL targets the stored fanSpeed (0 or missing defaulting
to 2), PRE_CLEAN targets speed 5. -/
def modeCommand (fm : FanMode) (fs : Option Nat) : Action × Nat :=
  match fm with
  | FanMode.off => (Action.turnOff, 0)
  | FanMode.auto => (Action.setFanSpeed, 3)
  | FanMode.manual => (Action.setFanSpeed, jsOrNat fs 2)
  | FanMode.preCleanBoost => (Action.setFanSpeed, 5)

/-! ### PreClean service (preCleanService.js, first variant) -/

/-- The record updates done by markCancelled / cancelPreCleanImmediately
on one document. -/
def cancelRec (q : PreCleanRec) (now : Nat) : PreCleanRec :=
  { q with status := PCStatus.cancelled, actualEndAt := some now }

/-- PreCleanService.cancelPreCleanImmediately: findOne by preCleanId
with status active, and if found mark it cancelled with actualEndAt. -/
def cancelPreCleanImmediately (pcs : List PreCleanRec) (pid now : Nat) :
    List PreCleanRec :=
  pcs.map (fun q =>
    if q.preCleanId = pid ∧ q.status = PCStatus.active then cancelRec q now else q)

/-- PreCleanService.cancelActivePreCleans: snapshot the active
pre-cleans of the device and call markCancelled on each fetched
document (by its preCleanId). -/
def cancelActivePreCleans (pcs : List PreCleanRec) (d now : Nat) :
    List PreCleanRec :=
  (findActivePreCleans pcs d).foldl
    (fun acc pc =>
      acc.map (fun q => if q.preCleanId = pc.preCleanId then cancelRec q now else q))
    pcs

/-- The sort by startedAt descending followed by taking element 0, used
on the other-active-pre-cleans query in completePreClean. -/
def mostRecentStarted (l : List PreCleanRec) : Option PreCleanRec :=
  match l with
  | [] => none
  | a :: rest => some (pickMax (fun q => q.startedAt) a rest)

/-- The result of PreCleanService.completePreClean: the updated
PreClean collection and the restore command dispatched (source tag
restore, which the coordination policy never blocks). -/
structure CompleteResult where
  preCleans : List PreCleanRec
  restoreCmd : Action × Nat
  deriving DecidableEq

/-- The query at the top of completePreClean: the other active
pre-cleans of the same device, excluding the completing one. -/
def othersOf (pcs : List PreCleanRec) (p : PreCleanRec) : List PreCleanRec :=
  pcs.filter (fun q =>
    decide (q.deviceId = p.deviceId ∧ q.status = PCStatus.active ∧
      q.preCleanId ≠ p.preCleanId))

/-- PreCleanService.completePreClean (lines 120-199): collect the other
active pre-cleans of the device sorted by startedAt descending, mark
this one completed, then restore to the most recent other active
override's target if any, else to the highest-speed currently active
schedule if any, else to this override's captured previousState
(setFanSpeed if it was powered, turnOff otherwise). -/
def completePreClean (pcs : List PreCleanRec) (schedules : List ScheduleRec)
    (p : PreCleanRec) (t : Moment) (now : Nat) : CompleteResult :=
  let others := othersOf pcs p
  let pcs' := pcs.map (fun q =>
    if q.preCleanId = p.preCleanId then
      { q with status := PCStatus.completed, actualEndAt := some now }
    else q)
  match mostRecentStarted others with
  | some m => { preCleans := pcs', restoreCmd := modeCommand m.fanMode m.fanSpeed }
  | none =>
      match getActiveSchedulesAtTime schedules p.deviceId t with
      | s :: rest =>
          { preCleans := pcs'
            restoreCmd := (Action.setFanSpeed, (pickMax (fun u => u.fanSpeed) s rest).fanSpeed) }
      | [] =>
          if p.previousState.powerOn then
            { preCleans := pcs'
              restoreCmd := (Action.setFanSpeed, p.previousState.fanSpeed) }
          else
            { preCleans := pcs', restoreCmd := (Action.turnOff, 0) }

/-- The result of PreCleanService.startPreClean: the grown collection,
the created record, and the command dispatched (source tag preclean). -/
structure StartResult where
  preCleans : List PreCleanRec
  created : PreCleanRec
  dispatched : Action × Nat
  deriving DecidableEq

/-- PreCleanService.startPreClean: requires an existing DeviceState
(else it throws Device not found, modelled as none), snapshots the
device's current fanSpeed and powerOn as previousState, persists the
new active record, and dispatches the command for the requested mode.
pid is the generated preCleanId and now the start timestamp in ms. -/
def startPreClean (pcs : List PreCleanRec) (devs : List DeviceStateRec)
    (d : Nat) (fm : FanMode) (durationSeconds : Nat) (fs : Option Nat)
    (pid now : Nat) : Option StartResult :=
  match devs.find? (fun s => s.deviceId == d) with
  | none => none
  | some ds =>
      let r : PreCleanRec :=
        { preCleanId := pid, deviceId := d, fanMode := fm, fanSpeed := fs,
          duration := durationSeconds,
          previousState := { fanSpeed := ds.currentFanSpeed, powerOn := ds.powerOn },
          startedAt := now, scheduledEndAt := now + durationSeconds * 1000,
          actualEndAt := none, status := PCStatus.active }
      some { preCleans := pcs ++ [r], created := r,
             dispatched := modeCommand fm fs }

/-- The record updates deletePreClean performs before re-using the
restore path: mark the document with this id cancelled. -/
def markCancelledById (pcs : List PreCleanRec) (pid now : Nat) :
    List PreCleanRec :=
  pcs.map (fun q => if q.preCleanId = pid then cancelRec q now else q)

/-- The result of PreCleanService.deletePreClean: the updated
collection, the restore commands dispatched, and whether the record
was found. -/
structure DeleteResult where
  preCleans : List PreCleanRec
  dispatched : List (Action × Nat)
  found : Bool
  deriving DecidableEq

/-- PreCleanService.deletePreClean: a missing id returns null; an
active record is marked cancelled and then handed to completePreClean
(the restore path); a terminal record is deleted outright. -/
def deletePreClean (pcs : List PreCleanRec) (schedules : List ScheduleRec)
    (pid : Nat) (t : Moment) (now : Nat) : DeleteResult :=
  match pcs.find? (fun q => q.preCleanId == pid) with
  | none => { preCleans := pcs, dispatched := [], found := false }
  | some p =>
      if p.status = PCStatus.active then
        let pcs1 := markCancelledById pcs pid now
        let p1 := cancelRec p now
        let r := completePreClean pcs1 schedules p1 t now
        { preCleans := r.preCleans, dispatched := [r.restoreCmd], found := true }
      else
        { preCleans := pcs.filter (fun q => decide (q.preCleanId ≠ pid)),
          dispatched := [], found := true }

/-- The result of the POST /api/preclean/cancel route. -/
structure CancelRouteResult where
  preCleans : List PreCleanRec
  dispatched : List (Action × Nat)
  notFound : Bool
  deriving DecidableEq

/-- POST /api/preclean/cancel (precleanRoutes.js lines 117-159): 404
when the device has no active pre-clean, otherwise
cancelActivePreCleans, which only marks the records cancelled; no
command is dispatched on this path. -/
def cancelRoute (pcs : List PreCleanRec) (d now : Nat) : CancelRouteResult :=
  if (findActivePreCleans pcs d).length > 0 then
    { preCleans := cancelActivePreCleans pcs d now, dispatched := [],
      notFound := false }
  else
    { preCleans := pcs, dispatched := [], notFound := true }

/-! ### Scheduler service (schedulerService.js, first variant) -/

/-- Recurrence types of the enhanced scheduler. -/
inductive Recurrence
  | daily
  | weekly
  | monthly
  | custom
  deriving DecidableEq

/-- How the awaited sendCommand promise of a dispatched (non-blocked)
command behaves towards the scheduler: it can only reject (publish
error or retry exhaustion) or never settle (acknowledgment arrived);
see the retry model above. -/
inductive SendFate
  | rejects
  | neverSettles
  deriving DecidableEq

/-- Schedule.findByIdAndUpdate setting lastExecuted and pushing one
executionHistory entry. -/
def pushHistory (schedules : List ScheduleRec) (sid : Nat) (e : HistEntry)
    (now : Nat) : List ScheduleRec :=
  schedules.map (fun s =>
    if s.sid = sid then
      { s with lastExecuted := some now,
               executionHistory := s.executionHistory ++ [e] }
    else s)

/-- The executionHistory of the schedule with a given id (empty when
absent). -/
def historyOf (schedules : List ScheduleRec) (sid : Nat) : List HistEntry :=
  match schedules.find? (fun s => s.sid == sid) with
  | some s => s.executionHistory
  | none => []

/-- The result of SchedulerService.executeScheduleStart: the updated
schedules, the command published (if any), and whether the handler ran
to completion (false when it is suspended forever on the awaited send,
see the retry model). -/
structure SchedStartResult where
  schedules : List ScheduleRec
  dispatched : Option (Action × Nat)
  completed : Bool
  deriving DecidableEq

/-- Milliseconds per day, used by the interval guard. -/
def msPerDay : Nat := 86400000

/-- The interval guard at the top of executeScheduleStart: for
interval greater than 1 (and non-custom recurrence), skip execution
when fewer than interval days (or interval weeks) have passed since
lastExecuted. -/
def intervalGuardSkips (schedules : List ScheduleRec) (scheduleId : Nat)
    (rc : Recurrence) (interval : Nat) (now : Nat) : Bool :=
  if interval > 1 ∧ rc ≠ Recurrence.custom then
    match schedules.find? (fun s => s.sid == scheduleId) with
    | some s =>
        match s.lastExecuted with
        | some le =>
            let daysSince := (now - le) / msPerDay
            decide ((rc = Recurrence.daily ∧ daysSince < interval) ∨
              (rc = Recurrence.weekly ∧ daysSince < interval * 7))
        | none => false
    | none => false
  else false

/-- SchedulerService.executeScheduleStart (lines 167-232): after the
interval guard, recompute the schedules active now; when more than one
is active and the triggering schedule is not the one the highest-speed
reduce picks, append a blocked history entry to the triggering
schedule only and dispatch nothing; otherwise send the schedule-sourced
setFanSpeed command, return silently when the coordination policy
blocks it, and append a success entry only if the awaited send ever
resolves (which the dispatcher never does: the promise rejects or
never settles, so the catch path or the suspension is taken). -/
def executeScheduleStart (schedules : List ScheduleRec)
    (pcs : List PreCleanRec) (scheduleId d fanSpeed : Nat)
    (rc : Recurrence) (interval : Nat) (t : Moment) (now : Nat)
    (fate : SendFate) : SchedStartResult :=
  if intervalGuardSkips schedules scheduleId rc interval now then
    { schedules := schedules, dispatched := none, completed := true }
  else
    let acts := getActiveSchedulesAtTime schedules d t
    let blockedByPriority : Bool :=
      match acts with
      | a :: rest =>
          decide (acts.length > 1) &&
            decide (scheduleId ≠ (pickMax (fun s => s.fanSpeed) a rest).sid)
      | [] => false
    if blockedByPriority then
      { schedules := pushHistory schedules scheduleId
          { executedAt := now, status := HistStatus.blocked, retryCount := 0 } now
        dispatched := none, completed := true }
    else
      match sendCommandPolicy pcs d Action.setFanSpeed Source.schedule with
      | SendDecision.blocked =>
          { schedules := schedules, dispatched := none, completed := true }
      | SendDecision.dispatch =>
          match fate with
          | SendFate.rejects =>
              { schedules := schedules
                dispatched := some (Action.setFanSpeed, fanSpeed)
                completed := true }
          | SendFate.neverSettles =>
              { schedules := schedules
                dispatched := some (Action.setFanSpeed, fanSpeed)
                completed := false }

/-- The result of SchedulerService.executeScheduleEnd: updated
pre-cleans and device states plus the commands published. -/
structure SchedEndResult where
  preCleans : List PreCleanRec
  dispatched : List (Action × Nat)
  deviceStates : List DeviceStateRec
  deriving DecidableEq

/-- SchedulerService.executeScheduleEnd (lines 234-304): recompute the
active schedules excluding the ending one; when any pre-clean is
active, cancel each of them immediately and send a schedule-sourced
turnOff regardless of the remaining schedules; otherwise switch to the
highest-speed remaining schedule, or turn the device off when none
remain.  Commands route through the coordination policy of
sendCommand, and a schedule turnOff sets the scheduleEnded flag. -/
def executeScheduleEnd (schedules : List ScheduleRec)
    (pcs : List PreCleanRec) (devs : List DeviceStateRec)
    (scheduleId d : Nat) (t : Moment) (now : Nat) : SchedEndResult :=
  let acts := getActiveSchedulesAtTime schedules d t
  let remaining := acts.filter (fun s => decide (s.sid ≠ scheduleId))
  let actives := findActivePreCleans pcs d
  if actives.length > 0 then
    let pcs' := actives.foldl
      (fun acc pc => cancelPreCleanImmediately acc pc.preCleanId now) pcs
    match sendCommandPolicy pcs' d Action.turnOff Source.schedule with
    | SendDecision.blocked =>
        { preCleans := pcs', dispatched := [], deviceStates := devs }
    | SendDecision.dispatch =>
        { preCleans := pcs', dispatched := [(Action.turnOff, 0)],
          deviceStates := markScheduleEnded devs d }
  else
    match remaining with
    | s :: rest =>
        let hi := pickMax (fun u => u.fanSpeed) s rest
        match sendCommandPolicy pcs d Action.setFanSpeed Source.schedule with
        | SendDecision.blocked =>
            { preCleans := pcs, dispatched := [], deviceStates := devs }
        | SendDecision.dispatch =>
            { preCleans := pcs, dispatched := [(Action.setFanSpeed, hi.fanSpeed)],
              deviceStates := devs }
    | [] =>
        match sendCommandPolicy pcs d Action.turnOff Source.schedule with
        | SendDecision.blocked =>
            { preCleans := pcs, dispatched := [], deviceStates := devs }
        | SendDecision.dispatch =>
            { preCleans := pcs, dispatched := [(Action.turnOff, 0)],
              deviceStates := markScheduleEnded devs d }

/-! ### POST /api/preclean validation (precleanRoutes.js lines 33-111)
and the duration bounds of the PreClean schema -/

/-- The request body of POST /api/preclean. -/
structure PreCleanRequest where
  deviceId : Option Nat
  fanMode : Option FanMode
  fanSpeed : Option Nat
  minutes : Option Nat
  seconds : Option Nat
  deriving DecidableEq

/-- A request the route admitted, with the computed total duration. -/
structure ValidatedReq where
  deviceId : Nat
  fanMode : FanMode
  fanSpeed : Option Nat
  totalSeconds : Nat
  deriving DecidableEq

/-- The validation chain of POST /api/preclean: required fields, fan
mode, the MANUAL fanSpeed range (0 is falsy in the JavaScript check),
totalSeconds = minutes * 60 + seconds, and the 1..3600 duration
bound. -/
def validatePreCleanRequest (req : PreCleanRequest) : Option ValidatedReq :=
  match req.deviceId, req.fanMode with
  | some d, some fm =>
      if req.minutes = none ∧ req.seconds = none then none
      else if decide (fm = FanMode.manual) &&
          (match req.fanSpeed with
           | none => true
           | some v => decide (v < 1 ∨ v > 5)) then none
      else
        let total := (req.minutes.getD 0) * 60 + req.seconds.getD 0
        if total < 1 ∨ total > 3600 then none
        else some { deviceId := d, fanMode := fm, fanSpeed := req.fanSpeed,
                    totalSeconds := total }
  | _, _ => none

/-- The duration bounds the preCleanSchema enforces on save
(models/PreClean.js, duration min 1 max 3600; previousState.fanSpeed
min 0 max 5). -/
def preCleanSchemaValid (p : PreCleanRec) : Bool :=
  decide (1 ≤ p.duration ∧ p.duration ≤ 3600 ∧ p.previousState.fanSpeed ≤ 5)

/-! ### Pointwise view of the cancellation folds -/

/-- The per-record effect of cancelPreCleanImmediately. -/
def cancelStep (now pid : Nat) (q : PreCleanRec) : PreCleanRec :=
  if q.preCleanId = pid ∧ q.status = PCStatus.active then cancelRec q now else q

/-- The cumulative effect on one record of cancelling, in order, every
pre-clean of a fetched snapshot list (the loop in executeScheduleEnd). -/
def iterCancel (now : Nat) (ids : List PreCleanRec) (q : PreCleanRec) : PreCleanRec :=
  ids.foldl (fun y pc => cancelStep now pc.preCleanId y) q

/-! ### Concrete fixtures used to evaluate the model -/

/-- An active boost override on device 7 that snapshotted speed 2. -/
def pcA : PreCleanRec :=
  { preCleanId := 1, deviceId := 7, fanMode := FanMode.preCleanBoost,
    fanSpeed := none, duration := 60,
    previousState := { fanSpeed := 2, powerOn := true },
    startedAt := 10, scheduledEndAt := 70010, actualEndAt := none,
    status := PCStatus.active }

/-- A later manual-mode override on device 7 that snapshotted speed 5. -/
def pcB : PreCleanRec :=
  { preCleanId := 2, deviceId := 7, fanMode := FanMode.manual,
    fanSpeed := some 4, duration := 30,
    previousState := { fanSpeed := 5, powerOn := true },
    startedAt := 20, scheduledEndAt := 50020, actualEndAt := none,
    status := PCStatus.active }

/-- Monday 09:00 as a Moment. -/
def momentMon9 : Moment := { day := 1, minutes := 540 }

/-- Schedule 1: Monday 09:00-17:00 at speed 3 on device 7. -/
def S1f : ScheduleRec :=
  { sid := 1, deviceId := 7, day := some 1, days := [], startTime := 540,
    endTime := 1020, fanSpeed := 3, isActive := true,
    executionHistory := [], lastExecuted := none }

/-- Schedule 2: Monday 09:00-17:00 at speed 5 on device 7. -/
def S2f : ScheduleRec :=
  { sid := 2, deviceId := 7, day := some 1, days := [], startTime := 540,
    endTime := 1020, fanSpeed := 5, isActive := true,
    executionHistory := [], lastExecuted := none }

/-- Schedule 3: Monday 08:00-17:00 at speed 1 on device 7, already
inside its window at 09:00 (it does not fire then). -/
def S3f : ScheduleRec :=
  { sid := 3, deviceId := 7, day := some 1, days := [], startTime := 480,
    endTime := 1020, fanSpeed := 1, isActive := true,
    executionHistory := [], lastExecuted := none }

/-- An audit record already in the terminal state acknowledged. -/
def logAcked : CommandLogRec :=
  { commandId := 1, deviceId := 7, action := Action.setFanSpeed, value := 3,
    source := Source.manual, status := CmdStatus.acknowledged,
    sentAt := some 50, acknowledgedAt := some 100, retryCount := 0,
    deviceResponseOk := some true, deviceResponseAt := some 90 }

/-- A device state for device 7. -/
def devW : DeviceStateRec :=
  { deviceId := 7, currentFanSpeed := 3, powerOn := true, isOnline := true,
    lastSeen := 100, scheduleEnded := false }

/-- A backend state whose only audit record is already terminal and
whose pending set is empty. -/
def stW : BackendState :=
  { logs := [logAcked], devs := [devW], pending := [] }

/-- A duplicate acknowledgment for the already-acknowledged command 1. -/
def ackDup : AckData :=
  { commandId := 1, deviceId := 7, success := true, timestamp := 190,
    currentState := some { fanSpeed := 4, powerOn := true } }

/-- An acknowledgment for an unknown commandId. -/
def ackUnknown : AckData :=
  { commandId := 2, deviceId := 7, success := true, timestamp := 190,
    currentState := some { fanSpeed := 4, powerOn := true } }

end Praan

namespace Praan

/-! ### Helper lemmas -/

theorem pickMax_mem (key : α → Nat) (a : α) (l : List α) :
    pickMax key a l ∈ a :: l := by
  induction l generalizing a with
  | nil => simp [pickMax]
  | cons b bs ih =>
      have h := ih (if key b > key a then b else a)
      simp only [pickMax, List.foldl_cons] at h ⊢
      rcases List.mem_cons.mp h with h1 | h1
      · rw [h1]
        by_cases hb : key b > key a <;> simp [hb]
      · simp [List.mem_cons]
        tauto

theorem le_pickMax (key : α → Nat) (a : α) (l : List α) :
    ∀ x ∈ a :: l, key x ≤ key (pickMax key a l) := by
  induction l generalizing a with
  | nil =>
      intro x hx
      rcases List.mem_cons.mp hx with h1 | h1
      · rw [h1]; simp [pickMax]
      · simp at h1
  | cons b bs ih =>
      intro x hx
      have hstep : key a ≤ key (if key b > key a then b else a) ∧
          key b ≤ key (if key b > key a then b else a) := by
        by_cases hb : key b > key a <;> simp [hb] <;> omega
      have hmain := ih (if key b > key a then b else a)
      have hgoal : pickMax key a (b :: bs) =
          pickMax key (if key b > key a then b else a) bs := rfl
      rw [hgoal]
      rcases List.mem_cons.mp hx with h1 | h1
      · rw [h1]
        exact le_trans hstep.1 (hmain _ (List.mem_cons_self _ _))
      · rcases List.mem_cons.mp h1 with h2 | h2
        · rw [h2]
          exact le_trans hstep.2 (hmain _ (List.mem_cons_self _ _))
        · exact hmain x (List.mem_cons_of_mem _ h2)

theorem updateFirst_eq_of_forall_not (p : α → Bool) (f : α → α)
    (l : List α) (h : ∀ x ∈ l, p x = false) : updateFirst p f l = l := by
  induction l with
  | nil => rfl
  | cons x xs ih =>
      have hx := h x (List.mem_cons_self _ _)
      simp [updateFirst, hx]
      exact ih (fun y hy => h y (List.mem_cons_of_mem _ hy))

theorem updateFirst_append (p : α → Bool) (f : α → α) (pre : List α)
    (x : α) (post : List α) (hpre : ∀ y ∈ pre, p y = false)
    (hx : p x = true) :
    updateFirst p f (pre ++ x :: post) = pre ++ f x :: post := by
  induction pre with
  | nil => simp [updateFirst, hx]
  | cons y ys ih =>
      have hy := hpre y (List.mem_cons_self _ _)
      simp only [List.cons_append, updateFirst, hy]
      simp only [Bool.false_eq_true, if_false, List.cons.injEq, true_and]
      exact ih (fun z hz => hpre z (List.mem_cons_of_mem _ hz))

theorem updateFirst_exists_mem (p : α → Bool) (f : α → α) (l : List α)
    (h : ∃ x ∈ l, p x = true) :
    ∃ x ∈ l, p x = true ∧ f x ∈ updateFirst p f l := by
  induction l with
  | nil => simp at h
  | cons y ys ih =>
      by_cases hy : p y = true
      · exact ⟨y, List.mem_cons_self _ _, hy, by simp [updateFirst, hy]⟩
      · have hy' : p y = false := by
          cases hpy : p y
          · rfl
          · exact absurd hpy hy
        rcases h with ⟨x, hx, hpx⟩
        rcases List.mem_cons.mp hx with h1 | h1
        · rw [h1] at hpx; exact absurd hpx hy
        · rcases ih ⟨x, h1, hpx⟩ with ⟨z, hz, hpz, hmem⟩
          exact ⟨z, List.mem_cons_of_mem _ hz, hpz,
            by simp [updateFirst, hy', hmem]⟩

theorem foldl_map_map (g : β → α → α) (ids : List β) (l : List α) :
    ids.foldl (fun acc i => acc.map (g i)) l =
      l.map (fun x => ids.foldl (fun y i => g i y) x) := by
  induction ids generalizing l with
  | nil => simp
  | cons i is ih =>
      simp only [List.foldl_cons]
      rw [ih, List.map_map]
      rfl

end Praan

namespace Praan

/-- C1: a schedule-sourced command other than turnOff is blocked and
not dispatched whenever an override is active for the device; a
schedule turnOff is always admitted; and preclean-, restore- and
manual-sourced commands are never blocked. -/
theorem C1_coordination_policy
    (pcs : List PreCleanRec) (devs : List DeviceStateRec)
    (d : Nat) (action : Action) (value : Nat) (source : Source) (cid : Nat) :
    ((source = Source.schedule ∧ action ≠ Action.turnOff ∧
        findActivePreCleans pcs d ≠ []) →
      (sendCommandStep pcs devs d action value source cid).blocked = true ∧
      (sendCommandStep pcs devs d action value source cid).published = none) ∧
    ((source = Source.schedule ∧ action = Action.turnOff) →
      (sendCommandStep pcs devs d action value source cid).blocked = false) ∧
    (source ≠ Source.schedule →
      (sendCommandStep pcs devs d action value source cid).blocked = false) := by
  refine ⟨?_, ?_, ?_⟩
  · rintro ⟨hs, ha, hne⟩
    have hlen : (findActivePreCleans pcs d).length > 0 :=
      List.length_pos.mpr hne
    simp [sendCommandStep, sendCommandPolicy, hs, ha, hlen]
  · rintro ⟨hs, ha⟩
    simp [sendCommandStep, sendCommandPolicy, hs, ha]
  · intro hs
    simp [sendCommandStep, sendCommandPolicy, hs]

/-- Witness for C1 at concrete inputs: one active override on device 7
blocks a schedule setFanSpeed, admits a schedule turnOff, and admits a
restore-sourced command. -/
theorem C1_coordination_policy_witness :
    ((Source.schedule = Source.schedule ∧
        Action.setFanSpeed ≠ Action.turnOff ∧
        findActivePreCleans
          [{ preCleanId := 1, deviceId := 7, fanMode := FanMode.preCleanBoost,
             fanSpeed := none, duration := 60,
             previousState := { fanSpeed := 2, powerOn := true },
             startedAt := 0, scheduledEndAt := 60000, actualEndAt := none,
             status := PCStatus.active }] 7 ≠ []) ∧
      ((sendCommandStep
          [{ preCleanId := 1, deviceId := 7, fanMode := FanMode.preCleanBoost,
             fanSpeed := none, duration := 60,
             previousState := { fanSpeed := 2, powerOn := true },
             startedAt := 0, scheduledEndAt := 60000, actualEndAt := none,
             status := PCStatus.active }] [] 7 Action.setFanSpeed 3
          Source.schedule 11).blocked = true ∧
       (sendCommandStep
          [{ preCleanId := 1, deviceId := 7, fanMode := FanMode.preCleanBoost,
             fanSpeed := none, duration := 60,
             previousState := { fanSpeed := 2, powerOn := true },
             startedAt := 0, scheduledEndAt := 60000, actualEndAt := none,
             status := PCStatus.active }] [] 7 Action.setFanSpeed 3
          Source.schedule 11).published = none)) ∧
    ((sendCommandStep
        [{ preCleanId := 1, deviceId := 7, fanMode := FanMode.preCleanBoost,
           fanSpeed := none, duration := 60,
           previousState := { fanSpeed := 2, powerOn := true },
           startedAt := 0, scheduledEndAt := 60000, actualEndAt := none,
           status := PCStatus.active }] [] 7 Action.turnOff 0
        Source.schedule 12).blocked = false) ∧
    ((sendCommandStep
        [{ preCleanId := 1, deviceId := 7, fanMode := FanMode.preCleanBoost,
           fanSpeed := none, duration := 60,
           previousState := { fanSpeed := 2, powerOn := true },
           startedAt := 0, scheduledEndAt := 60000, actualEndAt := none,
           status := PCStatus.active }] [] 7 Action.setFanSpeed 5
        Source.restore 13).blocked = false) := by
  refine ⟨⟨by decide, ?_⟩, ?_, ?_⟩
  · exact (C1_coordination_policy
      [{ preCleanId := 1, deviceId := 7, fanMode := FanMode.preCleanBoost,
         fanSpeed := none, duration := 60,
         previousState := { fanSpeed := 2, powerOn := true },
         startedAt := 0, scheduledEndAt := 60000, actualEndAt := none,
         status := PCStatus.active }] [] 7 Action.setFanSpeed 3
      Source.schedule 11).1 ⟨rfl, by decide, by decide⟩
  · exact (C1_coordination_policy
      [{ preCleanId := 1, deviceId := 7, fanMode := FanMode.preCleanBoost,
         fanSpeed := none, duration := 60,
         previousState := { fanSpeed := 2, powerOn := true },
         startedAt := 0, scheduledEndAt := 60000, actualEndAt := none,
         status := PCStatus.active }] [] 7 Action.turnOff 0
      Source.schedule 12).2.1 ⟨rfl, rfl⟩
  · exact (C1_coordination_policy
      [{ preCleanId := 1, deviceId := 7, fanMode := FanMode.preCleanBoost,
         fanSpeed := none, duration := 60,
         previousState := { fanSpeed := 2, powerOn := true },
         startedAt := 0, scheduledEndAt := 60000, actualEndAt := none,
         status := PCStatus.active }] [] 7 Action.setFanSpeed 5
      Source.restore 13).2.2 (by decide)

end Praan

namespace Praan

/-- C3: with the contract configuration maxRetries = 3, a command that
never receives an acknowledgment is published on exactly 4 attempts
(the first plus 3 retries, each re-publishing the identical envelope),
each attempt gated by the configured timeout, and the command is
marked timeout only once the last attempt's timeout has expired, after
4 full timeout windows, with no further attempts. -/
theorem C3_retry_budget (T cid : Nat) :
    sendCommandWithRetry maxRetriesDefault T
        (fun _ => false) (fun _ => false) cid 0 =
      { attempts := 4, publishes := List.replicate 4 cid, elapsed := 4 * T,
        finalStatus := CmdStatus.timeout, ackHandled := false,
        promise := some PromiseOutcome.rejectedTimeout } := by
  simp [sendCommandWithRetry, maxRetriesDefault, List.replicate]
  omega

/-- C9 (code bug): when an acknowledgment bearing the matching
commandId arrives within the first attempt's timeout window,
handleAcknowledgment clears the pending timeout and marks the audit
record acknowledged, but the stored resolve callback is never invoked,
so the promise returned to the caller never settles: the caller
receives no terminal outcome at all. -/
theorem C9_ack_never_settles :
    sendCommandWithRetry maxRetriesDefault retryTimeoutDefault
        (fun _ => false) (fun n => n == 0) 99 0 =
      { attempts := 1, publishes := [99], elapsed := 0,
        finalStatus := CmdStatus.acknowledged, ackHandled := true,
        promise := none } := by
  simp [sendCommandWithRetry, maxRetriesDefault, retryTimeoutDefault]

/-- C7 counterexample: with the retry budget exhausted (no
acknowledgment ever arrives, publishes succeed), the send operation
does not resolve with a typed failure outcome: its promise settles
only by rejection. -/
theorem C7_counterexample :
    ¬ ∃ o, (sendCommandWithRetry maxRetriesDefault retryTimeoutDefault
        (fun _ => false) (fun _ => false) 42 0).promise = some o ∧
      o.isRejection = false := by
  have h : (sendCommandWithRetry maxRetriesDefault retryTimeoutDefault
      (fun _ => false) (fun _ => false) 42 0).promise =
      some PromiseOutcome.rejectedTimeout := by
    simp [sendCommandWithRetry, maxRetriesDefault, retryTimeoutDefault]
  rintro ⟨o, ho, hro⟩
  rw [h] at ho
  obtain rfl : PromiseOutcome.rejectedTimeout = o := Option.some.inj ho
  exact absurd hro (by decide)

/-- C7 amended: when the retry budget is exhausted the send operation
rejects (throws) with the timeout error rather than resolving, and the
callers contain the rejection: the Schedule Arbiter's start handler
wraps the awaited send in try/catch, so with a rejecting send it still
runs to completion instead of propagating the exception. -/
theorem C7_reject_on_exhaustion (T cid : Nat)
    (schedules : List ScheduleRec) (pcs : List PreCleanRec)
    (scheduleId d fanSpeed : Nat) (rc : Recurrence) (interval : Nat)
    (t : Moment) (now : Nat) :
    ((sendCommandWithRetry maxRetriesDefault T
        (fun _ => false) (fun _ => false) cid 0).promise =
      some PromiseOutcome.rejectedTimeout ∧
     PromiseOutcome.rejectedTimeout.isRejection = true) ∧
    (executeScheduleStart schedules pcs scheduleId d fanSpeed rc interval
        t now SendFate.rejects).completed = true := by
  refine ⟨⟨?_, rfl⟩, ?_⟩
  · simp [sendCommandWithRetry, maxRetriesDefault]
  · unfold executeScheduleStart
    split
    · rfl
    · dsimp only
      split
      · rfl
      · cases sendCommandPolicy pcs d Action.setFanSpeed Source.schedule <;> rfl

/-- C10: the POST /api/preclean validation admits a request only when
its computed total duration lies in [1, 3600] seconds; the PreClean
schema enforces the same bounds on the persisted duration; and the
record startPreClean creates from an admitted request carries that
total duration, so no persisted override can run longer than one
hour. -/
theorem C10_duration_bounds :
    (∀ req v, validatePreCleanRequest req = some v →
      1 ≤ v.totalSeconds ∧ v.totalSeconds ≤ 3600) ∧
    (∀ p, preCleanSchemaValid p = true →
      1 ≤ p.duration ∧ p.duration ≤ 3600) ∧
    (∀ req v pcs devs pid now r, validatePreCleanRequest req = some v →
      startPreClean pcs devs v.deviceId v.fanMode v.totalSeconds
        v.fanSpeed pid now = some r →
      1 ≤ r.created.duration ∧ r.created.duration ≤ 3600) := by
  have hval : ∀ req v, validatePreCleanRequest req = some v →
      1 ≤ v.totalSeconds ∧ v.totalSeconds ≤ 3600 := by
    intro req v h
    unfold validatePreCleanRequest at h
    split at h
    · split at h
      · exact absurd h (by simp)
      · split at h
        · exact absurd h (by simp)
        · dsimp only at h
          split at h
          · exact absurd h (by simp)
          · rename_i htot
            obtain rfl : _ = v := Option.some.inj h
            push_neg at htot
            dsimp only
            omega
    · exact absurd h (by simp)
  refine ⟨hval, ?_, ?_⟩
  · intro p h
    have h' := of_decide_eq_true h
    exact ⟨h'.1, h'.2.1⟩
  · intro req v pcs devs pid now r hv hs
    unfold startPreClean at hs
    split at hs
    · exact absurd hs (by simp)
    · obtain rfl : _ = r := Option.some.inj hs
      exact hval req v hv

/-- Witness for C10 at a concrete request: 90 seconds total duration is
admitted and the created record's duration is 90, inside the bounds. -/
theorem C10_duration_bounds_witness :
    (validatePreCleanRequest
        { deviceId := some 7, fanMode := some FanMode.preCleanBoost,
          fanSpeed := none, minutes := some 1, seconds := some 30 } =
      some { deviceId := 7, fanMode := FanMode.preCleanBoost,
             fanSpeed := none, totalSeconds := 90 }) ∧
    (1 ≤ (90 : Nat) ∧ (90 : Nat) ≤ 3600) := by
  constructor
  · rfl
  · exact (C10_duration_bounds.1
      { deviceId := some 7, fanMode := some FanMode.preCleanBoost,
        fanSpeed := none, minutes := some 1, seconds := some 30 }
      { deviceId := 7, fanMode := FanMode.preCleanBoost,
        fanSpeed := none, totalSeconds := 90 } rfl)

end Praan

namespace Praan

/-- C4 counterexample: processing a duplicate acknowledgment for the
already-acknowledged command 1 changes state: the audit record's
acknowledgedAt and deviceResponse are overwritten and the device
state's lastSeen and speed are re-applied. -/
theorem C4_counterexample : handleAcknowledgment stW ackDup 200 ≠ stW := by
  decide

/-- C4 amended: the acknowledgment handler is not guarded by terminal
state.  An ack whose commandId matches no audit record leaves the
audit log unchanged, but an ack matching any record, terminal or not,
unconditionally overwrites its status, acknowledgedAt and
deviceResponse; and every success ack carrying a currentState updates
(upserts) the device state, even for unknown or terminal commandIds. -/
theorem C4_ack_not_ignored (st : BackendState) (a : AckData) (now : Nat) :
    ((∀ L ∈ st.logs, L.commandId ≠ a.commandId) →
      (handleAcknowledgment st a now).logs = st.logs) ∧
    (∀ pre L post, st.logs = pre ++ L :: post →
      (∀ K ∈ pre, K.commandId ≠ a.commandId) → L.commandId = a.commandId →
      (handleAcknowledgment st a now).logs =
        pre ++ { L with
                 status := if a.success then CmdStatus.acknowledged
                           else CmdStatus.failed
                 acknowledgedAt := some now
                 deviceResponseOk := some a.success
                 deviceResponseAt := some a.timestamp } :: post) ∧
    (∀ cs, a.success = true → a.currentState = some cs →
      ∃ s ∈ (handleAcknowledgment st a now).devs,
        s.deviceId = a.deviceId ∧ s.lastSeen = now ∧
        s.currentFanSpeed = cs.fanSpeed ∧ s.powerOn = cs.powerOn) := by
  refine ⟨?_, ?_, ?_⟩
  · intro h
    simp only [handleAcknowledgment]
    exact updateFirst_eq_of_forall_not _ _ _
      (fun L hL => by simpa using h L hL)
  · intro pre L post hsplit hpre hL
    simp only [handleAcknowledgment]
    rw [hsplit]
    exact updateFirst_append _ _ pre L post
      (fun K hK => by simpa using hpre K hK) (by simpa using hL)
  · intro cs hsucc hcs
    simp only [handleAcknowledgment, hsucc, hcs]
    by_cases hany : st.devs.any (fun s => s.deviceId == a.deviceId)
    · simp only [hany, if_true]
      obtain ⟨x, hx, hpx⟩ := List.any_eq_true.mp hany
      obtain ⟨z, hz, hpz, hmem⟩ :=
        updateFirst_exists_mem (fun s => s.deviceId == a.deviceId)
          (fun s => { s with currentFanSpeed := cs.fanSpeed,
                             powerOn := cs.powerOn, isOnline := cs.powerOn,
                             lastSeen := now }) st.devs ⟨x, hx, hpx⟩
      exact ⟨_, hmem, by simpa using hpz, rfl, rfl, rfl⟩
    · have hany' : st.devs.any (fun s => s.deviceId == a.deviceId) = false :=
        Bool.not_eq_true _ ▸ (by simpa using hany)
      simp only [hany', Bool.false_eq_true, if_false]
      exact ⟨_, List.mem_append_right _ (List.mem_singleton.mpr rfl),
        rfl, rfl, rfl, rfl⟩

/-- Witness for C4 amended: an unknown-commandId ack leaves the audit
log unchanged; the duplicate ack for terminal command 1 overwrites the
record; and the success ack updates the device state record. -/
theorem C4_ack_not_ignored_witness :
    ((handleAcknowledgment stW ackUnknown 200).logs = stW.logs) ∧
    ((handleAcknowledgment stW ackDup 200).logs =
      [] ++ { logAcked with
              status := if ackDup.success then CmdStatus.acknowledged
                        else CmdStatus.failed
              acknowledgedAt := some 200
              deviceResponseOk := some ackDup.success
              deviceResponseAt := some ackDup.timestamp } :: []) ∧
    (∃ s ∈ (handleAcknowledgment stW ackDup 200).devs,
      s.deviceId = ackDup.deviceId ∧ s.lastSeen = 200 ∧
      s.currentFanSpeed = PrevState.fanSpeed { fanSpeed := 4, powerOn := true } ∧
      s.powerOn = PrevState.powerOn { fanSpeed := 4, powerOn := true }) := by
  refine ⟨?_, ?_, ?_⟩
  · exact (C4_ack_not_ignored stW ackUnknown 200).1 (by decide)
  · exact (C4_ack_not_ignored stW ackDup 200).2.1 [] logAcked [] rfl
      (by simp) rfl
  · exact (C4_ack_not_ignored stW ackDup 200).2.2
      { fanSpeed := 4, powerOn := true } rfl rfl

end Praan

namespace Praan

theorem iterCancel_of_not_active (now : Nat) (ids : List PreCleanRec)
    (q : PreCleanRec) (h : q.status ≠ PCStatus.active) :
    iterCancel now ids q = q := by
  induction ids with
  | nil => rfl
  | cons i is ih =>
      show iterCancel now is (cancelStep now i.preCleanId q) = q
      rw [show cancelStep now i.preCleanId q = q from if_neg (by tauto)]
      exact ih

theorem iterCancel_dichotomy (now : Nat) (ids : List PreCleanRec)
    (q : PreCleanRec) :
    iterCancel now ids q = q ∨ iterCancel now ids q = cancelRec q now := by
  induction ids with
  | nil => left; rfl
  | cons i is ih =>
      show iterCancel now is (cancelStep now i.preCleanId q) = q ∨
        iterCancel now is (cancelStep now i.preCleanId q) = cancelRec q now
      by_cases hc : q.preCleanId = i.preCleanId ∧ q.status = PCStatus.active
      · right
        rw [show cancelStep now i.preCleanId q = cancelRec q now from if_pos hc]
        exact iterCancel_of_not_active now is _ (by simp [cancelRec])
      · rw [show cancelStep now i.preCleanId q = q from if_neg hc]
        exact ih

theorem iterCancel_cancels (now : Nat) (ids : List PreCleanRec)
    (q : PreCleanRec) (hq : q.status = PCStatus.active)
    (hmem : ∃ pc ∈ ids, pc.preCleanId = q.preCleanId) :
    iterCancel now ids q = cancelRec q now := by
  induction ids with
  | nil => simp at hmem
  | cons i is ih =>
      show iterCancel now is (cancelStep now i.preCleanId q) = cancelRec q now
      by_cases hi : q.preCleanId = i.preCleanId
      · rw [show cancelStep now i.preCleanId q = cancelRec q now
          from if_pos ⟨hi, hq⟩]
        exact iterCancel_of_not_active now is _ (by simp [cancelRec])
      · rw [show cancelStep now i.preCleanId q = q from if_neg (by tauto)]
        apply ih
        rcases hmem with ⟨pc, hpc, hid⟩
        rcases List.mem_cons.mp hpc with h1 | h1
        · rw [h1] at hid; exact absurd hid.symm hi
        · exact ⟨pc, h1, hid⟩

theorem foldCancel_eq (actives pcs : List PreCleanRec) (now : Nat) :
    actives.foldl
        (fun acc pc => cancelPreCleanImmediately acc pc.preCleanId now) pcs =
      pcs.map (iterCancel now actives) := by
  unfold cancelPreCleanImmediately iterCancel cancelStep
  exact foldl_map_map
    (fun pc q =>
      if q.preCleanId = pc.preCleanId ∧ q.status = PCStatus.active then
        cancelRec q now
      else q)
    actives pcs

end Praan

namespace Praan

/-- C5: when a schedule's windowEnd handler runs while at least one
override is active for the device, every override of the device that
was active is cancelled (with actualEndAt stamped) and a single
turnOff command is issued, whatever the other schedules look like (the
schedules argument is universally quantified). -/
theorem C5_schedule_end_cancels_overrides
    (schedules : List ScheduleRec) (pcs : List PreCleanRec)
    (devs : List DeviceStateRec) (scheduleId d : Nat) (t : Moment)
    (now : Nat) (hne : findActivePreCleans pcs d ≠ []) :
    ((executeScheduleEnd schedules pcs devs scheduleId d t now).dispatched =
      [(Action.turnOff, 0)]) ∧
    (∀ q ∈ pcs, q.deviceId = d → q.status = PCStatus.active →
      cancelRec q now ∈
        (executeScheduleEnd schedules pcs devs scheduleId d t now).preCleans) ∧
    (∀ q ∈ (executeScheduleEnd schedules pcs devs scheduleId d t now).preCleans,
      q.deviceId = d → q.status ≠ PCStatus.active) := by
  have hlen : (findActivePreCleans pcs d).length > 0 := List.length_pos.mpr hne
  have hr : executeScheduleEnd schedules pcs devs scheduleId d t now =
      { preCleans := pcs.map (iterCancel now (findActivePreCleans pcs d))
        dispatched := [(Action.turnOff, 0)]
        deviceStates := markScheduleEnded devs d } := by
    unfold executeScheduleEnd
    dsimp only
    rw [if_pos hlen, foldCancel_eq]
    simp [sendCommandPolicy]
  refine ⟨by rw [hr], ?_, ?_⟩
  · intro q hq hdev hact
    rw [hr]
    have hmem : q ∈ findActivePreCleans pcs d :=
      List.mem_filter.mpr ⟨hq, by simp [hdev, hact]⟩
    have : iterCancel now (findActivePreCleans pcs d) q = cancelRec q now :=
      iterCancel_cancels now _ q hact ⟨q, hmem, rfl⟩
    exact this ▸ List.mem_map_of_mem _ hq
  · intro q' hq' hdev' hact'
    rw [hr] at hq'
    obtain ⟨q, hq, hiq⟩ := List.mem_map.mp hq'
    rcases iterCancel_dichotomy now (findActivePreCleans pcs d) q with hd | hd
    · have hqq : q' = q := by rw [← hiq, hd]
      have hmem : q ∈ findActivePreCleans pcs d :=
        List.mem_filter.mpr ⟨hq, by
          simp [hqq ▸ hdev', hqq ▸ hact']⟩
      have hc : iterCancel now (findActivePreCleans pcs d) q = cancelRec q now :=
        iterCancel_cancels now _ q (hqq ▸ hact') ⟨q, hmem, rfl⟩
      have : q' = cancelRec q now := by rw [← hiq, hc]
      rw [this] at hact'
      exact absurd hact' (by simp [cancelRec])
    · have : q' = cancelRec q now := by rw [← hiq, hd]
      rw [this] at hact'
      exact absurd hact' (by simp [cancelRec])

/-- Witness for C5: ending a window on device 7 with overrides pcA and
pcB active and schedule S1f still active cancels both overrides and
turns the device off. -/
theorem C5_schedule_end_cancels_overrides_witness :
    ((executeScheduleEnd [S1f] [pcA, pcB] [] 99 7 momentMon9 1000).dispatched =
      [(Action.turnOff, 0)]) ∧
    (cancelRec pcA 1000 ∈
      (executeScheduleEnd [S1f] [pcA, pcB] [] 99 7 momentMon9 1000).preCleans) ∧
    (cancelRec pcB 1000 ∈
      (executeScheduleEnd [S1f] [pcA, pcB] [] 99 7 momentMon9 1000).preCleans) := by
  refine ⟨?_, ?_, ?_⟩
  · exact (C5_schedule_end_cancels_overrides [S1f] [pcA, pcB] [] 99 7
      momentMon9 1000 (by decide)).1
  · exact (C5_schedule_end_cancels_overrides [S1f] [pcA, pcB] [] 99 7
      momentMon9 1000 (by decide)).2.1 pcA (by decide) (by decide) (by decide)
  · exact (C5_schedule_end_cancels_overrides [S1f] [pcA, pcB] [] 99 7
      momentMon9 1000 (by decide)).2.1 pcB (by simp) (by decide) (by decide)

end Praan

namespace Praan

theorem completePreClean_preCleans (pcs : List PreCleanRec)
    (schedules : List ScheduleRec) (p : PreCleanRec) (t : Moment) (now : Nat) :
    (completePreClean pcs schedules p t now).preCleans =
      pcs.map (fun q =>
        if q.preCleanId = p.preCleanId then
          { q with status := PCStatus.completed, actualEndAt := some now }
        else q) := by
  unfold completePreClean
  dsimp only
  split
  · rfl
  · split
    · rfl
    · split <;> rfl

theorem completePreClean_restore_some (pcs : List PreCleanRec)
    (schedules : List ScheduleRec) (p : PreCleanRec) (t : Moment) (now : Nat)
    (m : PreCleanRec) (hm : mostRecentStarted (othersOf pcs p) = some m) :
    (completePreClean pcs schedules p t now).restoreCmd =
      modeCommand m.fanMode m.fanSpeed := by
  unfold completePreClean
  simp only [hm]

theorem completePreClean_restore_sched (pcs : List PreCleanRec)
    (schedules : List ScheduleRec) (p : PreCleanRec) (t : Moment) (now : Nat)
    (s : ScheduleRec) (rest : List ScheduleRec)
    (hnone : mostRecentStarted (othersOf pcs p) = none)
    (ha : getActiveSchedulesAtTime schedules p.deviceId t = s :: rest) :
    (completePreClean pcs schedules p t now).restoreCmd =
      (Action.setFanSpeed, (pickMax (fun u => u.fanSpeed) s rest).fanSpeed) := by
  unfold completePreClean
  simp only [hnone, ha]

theorem completePreClean_restore_prev (pcs : List PreCleanRec)
    (schedules : List ScheduleRec) (p : PreCleanRec) (t : Moment) (now : Nat)
    (hnone : mostRecentStarted (othersOf pcs p) = none)
    (ha : getActiveSchedulesAtTime schedules p.deviceId t = []) :
    (completePreClean pcs schedules p t now).restoreCmd =
      (if p.previousState.powerOn then
        (Action.setFanSpeed, p.previousState.fanSpeed)
      else (Action.turnOff, 0)) := by
  unfold completePreClean
  simp only [hnone, ha]
  split <;> simp

end Praan

namespace Praan

/-- C2: on completion of an override, if other overrides are still
active for the device the restore command targets a most recently
started one of them (its mode's target actuation); if none remain but
a schedule window is active now, the restore targets the speed of a
highest-speed active schedule; otherwise the restore re-applies the
completing override's own captured previousState (its saved speed if
it was powered, turnOff otherwise); and the completing override is
marked completed with actualEndAt stamped. -/
theorem C2_override_completion_restore (pcs : List PreCleanRec)
    (schedules : List ScheduleRec) (p : PreCleanRec) (t : Moment) (now : Nat) :
    (othersOf pcs p ≠ [] →
      ∃ m ∈ othersOf pcs p,
        (∀ q ∈ othersOf pcs p, q.startedAt ≤ m.startedAt) ∧
        (completePreClean pcs schedules p t now).restoreCmd =
          modeCommand m.fanMode m.fanSpeed) ∧
    (othersOf pcs p = [] → getActiveSchedulesAtTime schedules p.deviceId t ≠ [] →
      ∃ s ∈ getActiveSchedulesAtTime schedules p.deviceId t,
        (∀ u ∈ getActiveSchedulesAtTime schedules p.deviceId t,
          u.fanSpeed ≤ s.fanSpeed) ∧
        (completePreClean pcs schedules p t now).restoreCmd =
          (Action.setFanSpeed, s.fanSpeed)) ∧
    (othersOf pcs p = [] → getActiveSchedulesAtTime schedules p.deviceId t = [] →
      (completePreClean pcs schedules p t now).restoreCmd =
        (if p.previousState.powerOn then
          (Action.setFanSpeed, p.previousState.fanSpeed)
        else (Action.turnOff, 0))) ∧
    (∀ q ∈ pcs, q.preCleanId = p.preCleanId →
      { q with status := PCStatus.completed, actualEndAt := some now } ∈
        (completePreClean pcs schedules p t now).preCleans) := by
  refine ⟨?_, ?_, ?_, ?_⟩
  · intro hne
    obtain ⟨o, os, ho⟩ : ∃ o os, othersOf pcs p = o :: os := by
      cases h : othersOf pcs p with
      | nil => exact absurd h hne
      | cons o os => exact ⟨o, os, rfl⟩
    have hm : mostRecentStarted (othersOf pcs p) =
        some (pickMax (fun q => q.startedAt) o os) := by
      rw [ho]; rfl
    refine ⟨pickMax (fun q => q.startedAt) o os, ?_, ?_, ?_⟩
    · rw [ho]; exact pickMax_mem _ o os
    · rw [ho]; exact le_pickMax _ o os
    · exact completePreClean_restore_some pcs schedules p t now _ hm
  · intro hempty hne
    obtain ⟨s, rest, hs⟩ :
        ∃ s rest, getActiveSchedulesAtTime schedules p.deviceId t = s :: rest := by
      cases h : getActiveSchedulesAtTime schedules p.deviceId t with
      | nil => exact absurd h hne
      | cons s rest => exact ⟨s, rest, rfl⟩
    have hnone : mostRecentStarted (othersOf pcs p) = none := by
      rw [hempty]; rfl
    refine ⟨pickMax (fun u => u.fanSpeed) s rest, ?_, ?_, ?_⟩
    · rw [hs]; exact pickMax_mem _ s rest
    · rw [hs]; exact le_pickMax _ s rest
    · exact completePreClean_restore_sched pcs schedules p t now s rest hnone hs
  · intro hempty ha
    have hnone : mostRecentStarted (othersOf pcs p) = none := by
      rw [hempty]; rfl
    exact completePreClean_restore_prev pcs schedules p t now hnone ha
  · intro q hq hid
    rw [completePreClean_preCleans]
    have : (fun q => if q.preCleanId = p.preCleanId then
        { q with status := PCStatus.completed, actualEndAt := some now }
      else q) q =
        { q with status := PCStatus.completed, actualEndAt := some now } := by
      simp [hid]
    exact this ▸ List.mem_map_of_mem _ hq

/-- Witness for C2, exercising all four parts: completing pcB with pcA
still active restores to pcA's boost target (speed 5); completing pcB
alone under the active schedule S1f restores to the schedule speed 3;
completing pcB alone with no schedule restores its previousState
(speed 5, powered); and pcB is marked completed. -/
theorem C2_override_completion_restore_witness :
    (∃ m ∈ othersOf [pcA, pcB] pcB,
      (∀ q ∈ othersOf [pcA, pcB] pcB, q.startedAt ≤ m.startedAt) ∧
      (completePreClean [pcA, pcB] [] pcB momentMon9 50020).restoreCmd =
        modeCommand m.fanMode m.fanSpeed) ∧
    (∃ s ∈ getActiveSchedulesAtTime [S1f] pcB.deviceId momentMon9,
      (∀ u ∈ getActiveSchedulesAtTime [S1f] pcB.deviceId momentMon9,
        u.fanSpeed ≤ s.fanSpeed) ∧
      (completePreClean [pcB] [S1f] pcB momentMon9 50020).restoreCmd =
        (Action.setFanSpeed, s.fanSpeed)) ∧
    ((completePreClean [pcB] [] pcB momentMon9 50020).restoreCmd =
      (if pcB.previousState.powerOn then
        (Action.setFanSpeed, pcB.previousState.fanSpeed)
      else (Action.turnOff, 0))) ∧
    ({ pcB with status := PCStatus.completed, actualEndAt := some 50020 } ∈
      (completePreClean [pcA, pcB] [] pcB momentMon9 50020).preCleans) := by
  refine ⟨?_, ?_, ?_, ?_⟩
  · exact (C2_override_completion_restore [pcA, pcB] [] pcB momentMon9
      50020).1 (by decide)
  · exact (C2_override_completion_restore [pcB] [S1f] pcB momentMon9
      50020).2.1 (by decide) (by decide)
  · exact (C2_override_completion_restore [pcB] [] pcB momentMon9
      50020).2.2.1 (by decide) (by decide)
  · exact (C2_override_completion_restore [pcA, pcB] [] pcB momentMon9
      50020).2.2.2 pcB (by simp) rfl

end Praan

namespace Praan

theorem historyOf_pushHistory (schedules : List ScheduleRec) (sid : Nat)
    (e : HistEntry) (now : Nat) (hex : ∃ s ∈ schedules, s.sid = sid) :
    historyOf (pushHistory schedules sid e now) sid =
      historyOf schedules sid ++ [e] := by
  induction schedules with
  | nil => simp at hex
  | cons x xs ih =>
      by_cases hx : x.sid = sid
      · simp [pushHistory, historyOf, List.find?, hx]
      · have hbeq : (x.sid == sid) = false := by simpa using hx
        have hex' : ∃ s ∈ xs, s.sid = sid := by
          rcases hex with ⟨s, hs, hsid⟩
          rcases List.mem_cons.mp hs with h1 | h1
          · rw [h1] at hsid; exact absurd hsid hx
          · exact ⟨s, h1, hsid⟩
        have ihx := ih hex'
        simpa [pushHistory, historyOf, List.find?, hx, hbeq] using ihx

end Praan

namespace Praan

/-- C6 counterexample: schedules S1f (speed 3), S2f (speed 5) both
start at Monday 09:00 and S3f (speed 1) has been inside its window
since 08:00, all on device 7.  Running the 09:00 triggers (S1f's, then
S2f's) dispatches only the highest-speed schedule's command and
appends a blocked entry to S1f, but the concurrently active
non-highest schedule S3f gets no blocked entry from these triggers, so
the claim that every other concurrently active schedule has a blocked
entry appended is false. -/
theorem C6_counterexample :
    let r1 := executeScheduleStart [S1f, S2f, S3f] [] 1 7 3
      Recurrence.weekly 1 momentMon9 0 SendFate.rejects
    let r2 := executeScheduleStart r1.schedules [] 2 7 5
      Recurrence.weekly 1 momentMon9 0 SendFate.rejects
    r1.dispatched = none ∧
    r2.dispatched = some (Action.setFanSpeed, 5) ∧
    (∃ e ∈ historyOf r2.schedules 1, e.status = HistStatus.blocked) ∧
    ¬ (∀ s ∈ getActiveSchedulesAtTime r2.schedules 7 momentMon9,
        s.sid ≠ 2 →
          ∃ e ∈ historyOf r2.schedules s.sid,
            e.status = HistStatus.blocked) := by
  exact ⟨by decide, by decide, by decide, by decide⟩

/-- C6 amended: when a windowStart trigger fires for a schedule that is
not the highest-speed one among the more-than-one concurrently active
schedules, the trigger dispatches nothing and appends a blocked entry
to the triggering schedule's own history only; every other schedule
record is untouched and no schedule's active flag changes (each
non-highest schedule receives its blocked entry only when its own
trigger fires). -/
theorem C6_blocked_entry_only_triggering
    (schedules : List ScheduleRec) (pcs : List PreCleanRec)
    (scheduleId d fanSpeed : Nat) (rc : Recurrence) (interval : Nat)
    (t : Moment) (now : Nat) (fate : SendFate)
    (a : ScheduleRec) (rest : List ScheduleRec)
    (hskip : intervalGuardSkips schedules scheduleId rc interval now = false)
    (hacts : getActiveSchedulesAtTime schedules d t = a :: rest)
    (hlen : (a :: rest).length > 1)
    (hne : scheduleId ≠ (pickMax (fun s => s.fanSpeed) a rest).sid)
    (hex : ∃ s ∈ schedules, s.sid = scheduleId) :
    ((executeScheduleStart schedules pcs scheduleId d fanSpeed rc interval
        t now fate).dispatched = none) ∧
    (historyOf (executeScheduleStart schedules pcs scheduleId d fanSpeed rc
        interval t now fate).schedules scheduleId =
      historyOf schedules scheduleId ++
        [{ executedAt := now, status := HistStatus.blocked, retryCount := 0 }]) ∧
    (∀ s ∈ schedules, s.sid ≠ scheduleId →
      s ∈ (executeScheduleStart schedules pcs scheduleId d fanSpeed rc
        interval t now fate).schedules) ∧
    ((executeScheduleStart schedules pcs scheduleId d fanSpeed rc interval
        t now fate).schedules.map (fun s => (s.sid, s.isActive)) =
      schedules.map (fun s => (s.sid, s.isActive))) := by
  have hr : executeScheduleStart schedules pcs scheduleId d fanSpeed rc
      interval t now fate =
      { schedules := pushHistory schedules scheduleId
          { executedAt := now, status := HistStatus.blocked, retryCount := 0 } now
        dispatched := none, completed := true } := by
    unfold executeScheduleStart
    rw [hskip]
    dsimp only
    rw [hacts]
    have h1 : decide ((a :: rest).length > 1) = true := by
      simpa using hlen
    have h2 : decide (scheduleId ≠ (pickMax (fun s => s.fanSpeed) a rest).sid)
        = true := by simpa using hne
    dsimp only
    rw [h1, h2]
    rfl
  refine ⟨by rw [hr], ?_, ?_, ?_⟩
  · rw [hr]
    exact historyOf_pushHistory schedules scheduleId _ now hex
  · intro s hs hneq
    rw [hr]
    have : (fun s =>
        if s.sid = scheduleId then
          { s with lastExecuted := some now,
                   executionHistory := s.executionHistory ++
                     [{ executedAt := now, status := HistStatus.blocked,
                        retryCount := 0 }] }
        else s) s = s := by simp [hneq]
    exact this ▸ List.mem_map_of_mem _ hs
  · rw [hr]
    show (pushHistory schedules scheduleId _ now).map _ = _
    unfold pushHistory
    rw [List.map_map]
    apply List.map_congr_left
    intro s _
    by_cases hc : s.sid = scheduleId <;> simp [hc]

/-- Witness for C6 amended at the concrete counterexample state: S1f's
09:00 trigger (speed 3, not the highest among the three active
schedules) dispatches nothing, appends exactly one blocked entry to
S1f's history, leaves S2f untouched and disables nothing. -/
theorem C6_blocked_entry_only_triggering_witness :
    ((executeScheduleStart [S1f, S2f, S3f] [] 1 7 3 Recurrence.weekly 1
        momentMon9 0 SendFate.rejects).dispatched = none) ∧
    (historyOf (executeScheduleStart [S1f, S2f, S3f] [] 1 7 3
        Recurrence.weekly 1 momentMon9 0 SendFate.rejects).schedules 1 =
      historyOf [S1f, S2f, S3f] 1 ++
        [{ executedAt := 0, status := HistStatus.blocked, retryCount := 0 }]) ∧
    (S2f ∈ (executeScheduleStart [S1f, S2f, S3f] [] 1 7 3 Recurrence.weekly 1
        momentMon9 0 SendFate.rejects).schedules) ∧
    ((executeScheduleStart [S1f, S2f, S3f] [] 1 7 3 Recurrence.weekly 1
        momentMon9 0 SendFate.rejects).schedules.map
          (fun s => (s.sid, s.isActive)) =
      [S1f, S2f, S3f].map (fun s => (s.sid, s.isActive))) := by
  have h := C6_blocked_entry_only_triggering [S1f, S2f, S3f] [] 1 7 3
    Recurrence.weekly 1 momentMon9 0 SendFate.rejects S1f [S2f, S3f]
    (by decide) (by decide) (by decide) (by decide) ⟨S1f, by simp, by decide⟩
  exact ⟨h.1, h.2.1, h.2.2.1 S2f (by simp) (by decide), h.2.2.2⟩

end Praan

namespace Praan

/-- C8 counterexample: explicitly cancelling the active override pcA
through the cancel endpoint marks it cancelled but dispatches nothing,
while the expiry path (completePreClean) at the same state would
dispatch the restore command setFanSpeed 2 from pcA's previousState;
so cancellation through this endpoint is a bare status change without
restoration, contradicting the claim. -/
theorem C8_counterexample :
    ((cancelRoute [pcA] 7 1000).dispatched = []) ∧
    (cancelRec pcA 1000 ∈ (cancelRoute [pcA] 7 1000).preCleans) ∧
    ((completePreClean [pcA] [] pcA momentMon9 1000).restoreCmd =
      (Action.setFanSpeed, 2)) ∧
    ((cancelRoute [pcA] 7 1000).dispatched ≠
      [(completePreClean [pcA] [] pcA momentMon9 1000).restoreCmd]) := by
  exact ⟨by decide, by decide, by decide, by decide⟩

/-- C8 amended: only deletion runs the restore path.  Deleting an
active override (DELETE /api/preclean/:id, deletePreClean) marks it
cancelled and then hands it to completePreClean, so it dispatches
exactly the restore command of the expiry path and leaves the record
terminal; but the cancel endpoint (POST /api/preclean/cancel,
cancelActivePreCleans) only marks the device's active overrides
cancelled and never dispatches any restoration command. -/
theorem C8_delete_restores_cancel_does_not
    (pcs : List PreCleanRec) (schedules : List ScheduleRec) (pid : Nat)
    (t : Moment) (now : Nat) (p : PreCleanRec)
    (hfind : pcs.find? (fun q => q.preCleanId == pid) = some p)
    (hact : p.status = PCStatus.active) :
    ((deletePreClean pcs schedules pid t now).dispatched =
      [(completePreClean (markCancelledById pcs pid now) schedules
          (cancelRec p now) t now).restoreCmd]) ∧
    (∀ q ∈ (deletePreClean pcs schedules pid t now).preCleans,
      q.preCleanId = pid → q.status = PCStatus.completed) ∧
    (∀ d now2, (cancelRoute pcs d now2).dispatched = []) := by
  have hpid : p.preCleanId = pid := by
    have := List.find?_some hfind
    simpa using this
  have hr : deletePreClean pcs schedules pid t now =
      { preCleans := (completePreClean (markCancelledById pcs pid now)
          schedules (cancelRec p now) t now).preCleans
        dispatched := [(completePreClean (markCancelledById pcs pid now)
          schedules (cancelRec p now) t now).restoreCmd]
        found := true } := by
    unfold deletePreClean
    rw [hfind]
    dsimp only
    rw [if_pos hact]
  refine ⟨by rw [hr], ?_, ?_⟩
  · intro q hq hid
    rw [hr] at hq
    dsimp only at hq
    rw [completePreClean_preCleans] at hq
    obtain ⟨q0, hq0, hmap⟩ := List.mem_map.mp hq
    by_cases hc : q0.preCleanId = (cancelRec p now).preCleanId
    · rw [← hmap]
      simp [hc]
    · rw [← hmap] at hid ⊢
      rw [if_neg hc] at hid ⊢
      have : (cancelRec p now).preCleanId = pid := by simp [cancelRec, hpid]
      exact absurd (hid.trans this.symm) hc
  · intro d now2
    unfold cancelRoute
    split <;> rfl

/-- Witness for C8 amended: deleting the active override pcB (id 2)
dispatches the restore command of the expiry path, and the cancel
endpoint dispatches nothing. -/
theorem C8_delete_restores_cancel_does_not_witness :
    ((deletePreClean [pcA, pcB] [] 2 momentMon9 1000).dispatched =
      [(completePreClean (markCancelledById [pcA, pcB] 2 1000) []
          (cancelRec pcB 1000) momentMon9 1000).restoreCmd]) ∧
    ((cancelRoute [pcA, pcB] 7 1000).dispatched = []) := by
  refine ⟨?_, ?_⟩
  · exact (C8_delete_restores_cancel_does_not [pcA, pcB] [] 2 momentMon9
      1000 pcB (by decide) (by decide)).1
  · exact (C8_delete_restores_cancel_does_not [pcA, pcB] [] 2 momentMon9
      1000 pcB (by decide) (by decide)).2.2 7 1000

end Praan
